import Mathlib

/-!
Verification of the ZeroTier `RateLimiter` (src/node/RateLimiter.hpp).

The C++ class stores two `double` fields, `_lastTime` and `_balance`.
The specification types all quantities as reals (seconds and bytes as
real-valued counts), so the embedding models them as exact rationals `ℚ`.
The external clock `Utils::nowf()` is passed explicitly as a `now`
argument to every operation that reads it.
-/

namespace ZeroTier

/-- Struct `RateLimiter::Limit`: limits to apply to a rate limiter
(`bytesPerSecond`, `maxBalance`, `minBalance`). -/
structure Limit where
  bytesPerSecond : ℚ
  maxBalance : ℚ
  minBalance : ℚ
  deriving DecidableEq, Repr

/-- Mutable state of a `RateLimiter`: fields `_lastTime` and `_balance`. -/
structure RateLimiter where
  lastTime : ℚ
  balance : ℚ
  deriving DecidableEq, Repr

/-- Method `RateLimiter::init(preload)`:
`_lastTime = Utils::nowf(); _balance = preload;`.
The clock reading is the explicit argument `now`. -/
def init (now preload : ℚ) : RateLimiter :=
  { lastTime := now, balance := preload }

/-- Method `RateLimiter::updateBalance(lim)`:
`double lt = _lastTime; double now = _lastTime = Utils::nowf();`
`return (_balance = fmin(lim.maxBalance, _balance + (lim.bytesPerSecond * (now - lt))));`.
Returns the pair (returned balance, new state). -/
def updateBalance (lim : Limit) (now : ℚ) (st : RateLimiter) : ℚ × RateLimiter :=
  let lt := st.lastTime
  let b := min lim.maxBalance (st.balance + lim.bytesPerSecond * (now - lt))
  (b, { lastTime := now, balance := b })

/-- Method `RateLimiter::gate(lim, bytes)`:
`bool allow = (updateBalance(lim) >= bytes);`
`_balance = fmax(lim.minBalance, _balance - bytes);`
`return allow;`.
Returns the pair (verdict, new state). -/
def gate (lim : Limit) (bytes now : ℚ) (st : RateLimiter) : Bool × RateLimiter :=
  let r := updateBalance lim now st
  let allow := decide (r.1 ≥ bytes)
  let st1 := r.2
  (allow, { st1 with balance := max lim.minBalance (st1.balance - bytes) })

/-- One externally observable call on a `RateLimiter` instance, together
with the clock reading `Utils::nowf()` returned during that call. -/
inductive Op where
  | opInit (preload now : ℚ)
  | opUpdate (lim : Limit) (now : ℚ)
  | opGate (lim : Limit) (bytes now : ℚ)
  deriving DecidableEq, Repr

/-- Clock reading observed during a call. -/
def Op.time : Op → ℚ
  | .opInit _ now => now
  | .opUpdate _ now => now
  | .opGate _ _ now => now

/-- State transition performed by one call. -/
def step : Op → RateLimiter → RateLimiter
  | .opInit preload now, _ => init now preload
  | .opUpdate lim now, st => (updateBalance lim now st).2
  | .opGate lim bytes now, st => (gate lim bytes now st).2

/-- List of the states observed after each call of a sequence. -/
def runTrace : List Op → RateLimiter → List RateLimiter
  | [], _ => []
  | op :: ops, st =>
      let st1 := step op st
      st1 :: runTrace ops st1

/-- Calls accepted by the (amended) bound invariant: an `init` whose
preload already lies within `[minBalance, maxBalance]`, or a `gate`
against the fixed limit with a nonnegative byte count. -/
def okOp (lim : Limit) : Op → Bool
  | .opInit preload _ => decide (lim.minBalance ≤ preload ∧ preload ≤ lim.maxBalance)
  | .opUpdate _ _ => false
  | .opGate lim2 bytes _ => decide (lim2 = lim ∧ 0 ≤ bytes)

/-- Repeated `gate` calls with the same limit, byte count and clock
reading, threading the state; returns the (verdict, state) pair of each
call in order. -/
def gateReps (lim : Limit) (bytes now : ℚ) : ℕ → RateLimiter → List (Bool × RateLimiter)
  | 0, _ => []
  | n + 1, st =>
      let r := gate lim bytes now st
      r :: gateReps lim bytes now n r.2

/-! Helper lemmas about the individual operations. -/

/-- Unfolding lemma: the balance stored by `gate` is the refreshed
balance minus `bytes`, clamped below at `minBalance`. -/
lemma gate_balance (lim : Limit) (bytes now : ℚ) (st : RateLimiter) :
    (gate lim bytes now st).2.balance
      = max lim.minBalance ((updateBalance lim now st).1 - bytes) := rfl

/-- Unfolding lemma: `gate` stores the clock reading as `_lastTime`. -/
lemma gate_lastTime (lim : Limit) (bytes now : ℚ) (st : RateLimiter) :
    (gate lim bytes now st).2.lastTime = now := rfl

/-- Unfolding lemma: the balance returned by `updateBalance`. -/
lemma updateBalance_fst (lim : Limit) (now : ℚ) (st : RateLimiter) :
    (updateBalance lim now st).1
      = min lim.maxBalance (st.balance + lim.bytesPerSecond * (now - st.lastTime)) := rfl

/-- Refreshed balance never exceeds `maxBalance`. -/
lemma updateBalance_le_max (lim : Limit) (now : ℚ) (st : RateLimiter) :
    (updateBalance lim now st).1 ≤ lim.maxBalance := min_le_left _ _

/-- Balance after `gate` is at least `minBalance`, from any prior state. -/
lemma minBalance_le_gate (lim : Limit) (bytes now : ℚ) (st : RateLimiter) :
    lim.minBalance ≤ (gate lim bytes now st).2.balance := by
  rw [gate_balance]; exact le_max_left _ _

/-- Balance after `gate` is at most `maxBalance`, provided the limit is
consistent (`minBalance ≤ maxBalance`) and the debit is nonnegative. -/
lemma gate_le_maxBalance (lim : Limit) (bytes now : ℚ) (st : RateLimiter)
    (hmM : lim.minBalance ≤ lim.maxBalance) (hb : 0 ≤ bytes) :
    (gate lim bytes now st).2.balance ≤ lim.maxBalance := by
  rw [gate_balance]
  have h1 : (updateBalance lim now st).1 ≤ lim.maxBalance := updateBalance_le_max lim now st
  exact max_le hmM (by linarith)

/-- Every call stores its clock reading as `_lastTime`. -/
lemma step_lastTime (op : Op) (st : RateLimiter) : (step op st).lastTime = op.time := by
  cases op <;> rfl

/-- The `_lastTime` values along a trace are exactly the clock readings
of the calls. -/
lemma runTrace_map_lastTime (ops : List Op) (st : RateLimiter) :
    (runTrace ops st).map RateLimiter.lastTime = ops.map Op.time := by
  induction ops generalizing st with
  | nil => rfl
  | cons op ops ih => simp [runTrace, step_lastTime, ih]

/-- Behaviour of one denied `gate` call in the concrete scenario of C7:
limit `{r := 100, M := 1000, m := -500}`, request of 10000 bytes, zero
elapsed time, starting balance at most 1000. -/
lemma gate_c7_step (bal0 t : ℚ) (h : bal0 ≤ 1000) :
    gate ⟨100, 1000, -500⟩ 10000 t { lastTime := t, balance := bal0 }
      = (false, { lastTime := t, balance := -500 }) := by
  have hb : (updateBalance ⟨100, 1000, -500⟩ t { lastTime := t, balance := bal0 }).1 = bal0 := by
    rw [updateBalance_fst]
    simp only [sub_self, mul_zero, add_zero]
    exact min_eq_right h
  have hv : (gate ⟨100, 1000, -500⟩ 10000 t { lastTime := t, balance := bal0 }).1 = false := by
    show decide ((updateBalance ⟨100, 1000, -500⟩ t { lastTime := t, balance := bal0 }).1 ≥ 10000)
        = false
    rw [hb, decide_eq_false_iff_not]
    intro hge
    linarith
  have hbal : (gate ⟨100, 1000, -500⟩ 10000 t { lastTime := t, balance := bal0 }).2.balance
      = -500 := by
    rw [gate_balance, hb]
    exact max_eq_left (show bal0 - 10000 ≤ (-500:ℚ) by linarith)
  have hlt : (gate ⟨100, 1000, -500⟩ 10000 t { lastTime := t, balance := bal0 }).2.lastTime = t :=
    gate_lastTime _ _ _ _
  refine Prod.ext hv ?_
  cases hst : (gate ⟨100, 1000, -500⟩ 10000 t { lastTime := t, balance := bal0 }).2 with
  | mk lt b =>
      rw [hst] at hbal hlt
      simp only at hbal hlt
      rw [hbal, hlt]

/-! The claims. -/

/-- Claim C1, counterexample: under the limit `{r := 100, M := 1000, m := -500}`
(which satisfies r ≥ 0 and m ≤ 0 ≤ M), the one-call sequence
`init(2000)` leaves a balance of 2000, which violates `balance ≤ maxBalance`:
`init` stores its preload without any clamping. -/
theorem C1_counterexample :
    ((0:ℚ) ≤ 100 ∧ (-500:ℚ) ≤ 0 ∧ (0:ℚ) ≤ 1000) ∧
    ¬ (∀ st ∈ runTrace [Op.opInit 2000 0] { lastTime := 0, balance := 0 },
        (-500 : ℚ) ≤ st.balance ∧ st.balance ≤ 1000) := by
  refine ⟨by norm_num, ?_⟩
  intro h
  have h2 := h { lastTime := 0, balance := 2000 } (by simp [runTrace, step, init])
  norm_num at h2

/-- Claim C1, amended: for every sequence of `init`/`gate` calls against a
fixed `Limit{r, M, m}` with r ≥ 0 and m ≤ 0 ≤ M, in which every `init`
preload already lies in `[m, M]` and every `gate` byte count is ≥ 0,
after every call the balance satisfies m ≤ balance ≤ M. -/
theorem C1_bound_invariant (lim : Limit) (ops : List Op) (st0 : RateLimiter)
    (hr : 0 ≤ lim.bytesPerSecond) (hm : lim.minBalance ≤ 0) (hM : 0 ≤ lim.maxBalance)
    (hops : ∀ op ∈ ops, okOp lim op = true) :
    ∀ st ∈ runTrace ops st0, lim.minBalance ≤ st.balance ∧ st.balance ≤ lim.maxBalance := by
  induction ops generalizing st0 with
  | nil => intro st hst; simp [runTrace] at hst
  | cons op ops ih =>
      intro st hst
      simp only [runTrace, List.mem_cons] at hst
      rcases hst with rfl | hmem
      · have hop := hops op (List.mem_cons_self _ _)
        cases op with
        | opInit preload now =>
            simp only [okOp, decide_eq_true_eq] at hop
            simpa [step, init] using hop
        | opUpdate lim2 now => simp [okOp] at hop
        | opGate lim2 bytes now =>
            simp only [okOp, decide_eq_true_eq] at hop
            obtain ⟨h1, hb⟩ := hop
            show lim.minBalance ≤ (gate lim2 bytes now st0).2.balance ∧
              (gate lim2 bytes now st0).2.balance ≤ lim.maxBalance
            rw [h1]
            exact ⟨minBalance_le_gate lim bytes now st0,
              gate_le_maxBalance lim bytes now st0 (hm.trans hM) hb⟩
      · exact ih (step op st0) (fun op2 h2 => hops op2 (List.mem_cons_of_mem _ h2)) st hmem

/-- Witness for C1 at a concrete trace: after `init(0)` then `gate(50)`
under the limit `{r := 100, M := 1000, m := -500}`, the final state obeys
the bounds. -/
theorem C1_bound_invariant_witness :
    (⟨100, 1000, -500⟩ : Limit).minBalance
        ≤ (step (Op.opGate ⟨100, 1000, -500⟩ 50 0)
            (step (Op.opInit 0 0) { lastTime := 0, balance := 7 })).balance ∧
    (step (Op.opGate ⟨100, 1000, -500⟩ 50 0)
        (step (Op.opInit 0 0) { lastTime := 0, balance := 7 })).balance
      ≤ (⟨100, 1000, -500⟩ : Limit).maxBalance :=
  C1_bound_invariant ⟨100, 1000, -500⟩
    [Op.opInit 0 0, Op.opGate ⟨100, 1000, -500⟩ 50 0] { lastTime := 0, balance := 7 }
    (by norm_num) (by norm_num) (by norm_num)
    (by intro op hop
        simp only [List.mem_cons, List.not_mem_nil, or_false] at hop
        rcases hop with rfl | rfl <;> simp [okOp])
    _ (by simp [runTrace])

/-- Claim C2: `gate` returns true iff the refreshed balance (the value
returned by `updateBalance`, before the debit) is at least `bytes`. -/
theorem C2_admission_correctness (lim : Limit) (bytes now : ℚ) (st : RateLimiter) :
    (gate lim bytes now st).1 = true ↔ bytes ≤ (updateBalance lim now st).1 := by
  simp [gate, ge_iff_le]

/-- Claim C3: after any `gate(lim, bytes)` call the stored balance equals
`max(minBalance, refreshed - bytes)` where `refreshed` is the
post-refresh/pre-debit balance; the right-hand side does not mention the
verdict, so the equation holds identically whether `gate` returned true
or false. -/
theorem C3_debit_always_applied (lim : Limit) (bytes now : ℚ) (st : RateLimiter) :
    (gate lim bytes now st).2.balance
      = max lim.minBalance ((updateBalance lim now st).1 - bytes) := rfl

/-- Claim C4: `updateBalance` sets `_lastTime` to the clock reading, sets
the balance to `min(maxBalance, old + bytesPerSecond * Δt)`, returns that
new balance, and consequently (for `Δt ≥ 0`) the balance changes by
exactly `min(r * Δt, maxBalance - balance_before)`. -/
theorem C4_updateBalance_correct (lim : Limit) (now : ℚ) (st : RateLimiter)
    (hdt : st.lastTime ≤ now) :
    (updateBalance lim now st).2.lastTime = now ∧
    (updateBalance lim now st).2.balance
      = min lim.maxBalance (st.balance + lim.bytesPerSecond * (now - st.lastTime)) ∧
    (updateBalance lim now st).1 = (updateBalance lim now st).2.balance ∧
    (updateBalance lim now st).1
      = st.balance
          + min (lim.bytesPerSecond * (now - st.lastTime)) (lim.maxBalance - st.balance) := by
  refine ⟨rfl, rfl, rfl, ?_⟩
  rw [updateBalance_fst]
  rcases le_total (lim.bytesPerSecond * (now - st.lastTime)) (lim.maxBalance - st.balance)
    with hc | hc
  · rw [min_eq_right (by linarith), min_eq_left hc]
  · rw [min_eq_left (by linarith), min_eq_right hc]
    ring

/-- Witness for C4 at the concrete refresh of the spec's scenario: limit
`{r := 100, M := 1000, m := -500}`, state `(lastTime 0, balance -50)`,
clock reading 1. -/
theorem C4_updateBalance_witness :
    ({ lastTime := 0, balance := -50 } : RateLimiter).lastTime ≤ (1:ℚ) ∧
    ((updateBalance ⟨100, 1000, -500⟩ 1 { lastTime := 0, balance := -50 }).2.lastTime = 1 ∧
     (updateBalance ⟨100, 1000, -500⟩ 1 { lastTime := 0, balance := -50 }).2.balance
       = min (⟨100, 1000, -500⟩ : Limit).maxBalance
           (({ lastTime := 0, balance := -50 } : RateLimiter).balance
             + (⟨100, 1000, -500⟩ : Limit).bytesPerSecond
               * (1 - ({ lastTime := 0, balance := -50 } : RateLimiter).lastTime)) ∧
     (updateBalance ⟨100, 1000, -500⟩ 1 { lastTime := 0, balance := -50 }).1
       = (updateBalance ⟨100, 1000, -500⟩ 1 { lastTime := 0, balance := -50 }).2.balance ∧
     (updateBalance ⟨100, 1000, -500⟩ 1 { lastTime := 0, balance := -50 }).1
       = ({ lastTime := 0, balance := -50 } : RateLimiter).balance
           + min ((⟨100, 1000, -500⟩ : Limit).bytesPerSecond
               * (1 - ({ lastTime := 0, balance := -50 } : RateLimiter).lastTime))
             ((⟨100, 1000, -500⟩ : Limit).maxBalance
               - ({ lastTime := 0, balance := -50 } : RateLimiter).balance)) :=
  ⟨by norm_num,
   C4_updateBalance_correct ⟨100, 1000, -500⟩ 1 { lastTime := 0, balance := -50 } (by norm_num)⟩

/-- Claim C5: `init(x)` sets the balance to exactly `x` with no clamping
and sets `_lastTime` to the clock reading, overriding whatever state was
there before (the prior state `st` is arbitrary, so a later re-init
resets the state the same way). -/
theorem C5_init_overrides (x now : ℚ) (st : RateLimiter) :
    step (.opInit x now) st = { lastTime := now, balance := x } ∧
    (init now x).balance = x ∧ (init now x).lastTime = now :=
  ⟨rfl, rfl, rfl⟩

/-- Claim C6, counterexample: with the degenerate limit
`{r := 0, M := 0, m := 1}` (where `maxBalance` is not strictly greater
than `minBalance`), a `gate` call with 0 bytes from balance 0 leaves
balance 1, which strictly exceeds `maxBalance = 0`: the balance does
exceed one of the bounds. -/
theorem C6_counterexample :
    (⟨0, 0, 1⟩ : Limit).maxBalance ≤ (⟨0, 0, 1⟩ : Limit).minBalance ∧
    (gate ⟨0, 0, 1⟩ 0 0 { lastTime := 0, balance := 0 }).2.balance = 1 ∧
    ¬ ((gate ⟨0, 0, 1⟩ 0 0 { lastTime := 0, balance := 0 }).2.balance
        ≤ (⟨0, 0, 1⟩ : Limit).maxBalance) := by
  refine ⟨by norm_num, ?_, ?_⟩ <;>
    norm_num [gate_balance, updateBalance_fst, min_def, max_def]

/-- Claim C6, amended: when `maxBalance ≤ minBalance`, a `gate` call with
nonnegative `bytes` leaves the balance exactly equal to `minBalance` —
so the balance can exceed `maxBalance` (up to `minBalance`), and the
larger bound `minBalance` is never exceeded, but the original claim's
"never exceeds either bound" fails for `maxBalance`. -/
theorem C6_degenerate_limit (lim : Limit) (bytes now : ℚ) (st : RateLimiter)
    (hMm : lim.maxBalance ≤ lim.minBalance) (hb : 0 ≤ bytes) :
    (gate lim bytes now st).2.balance = lim.minBalance := by
  have h1 : (updateBalance lim now st).1 ≤ lim.maxBalance := updateBalance_le_max lim now st
  rw [gate_balance]
  exact max_eq_left (by linarith)

/-- Witness for C6 at the concrete degenerate limit `{r := 0, M := 0, m := 1}`,
a 2-byte request from balance 0. -/
theorem C6_degenerate_limit_witness :
    ((⟨0, 0, 1⟩ : Limit).maxBalance ≤ (⟨0, 0, 1⟩ : Limit).minBalance ∧ (0:ℚ) ≤ 2) ∧
    (gate ⟨0, 0, 1⟩ 2 0 { lastTime := 0, balance := 0 }).2.balance
      = (⟨0, 0, 1⟩ : Limit).minBalance :=
  ⟨⟨by norm_num, by norm_num⟩,
   C6_degenerate_limit ⟨0, 0, 1⟩ 2 0 { lastTime := 0, balance := 0 } (by norm_num) (by norm_num)⟩

/-- Claim C7: with limit `{r := 100, M := 1000, m := -500}`, starting from
any balance ≤ 1000, repeated `gate(limit, 10000)` calls with zero elapsed
time return false on every call, and after the first call the balance is
exactly -500 and stays -500 on every subsequent call. -/
theorem C7_repeated_denial (bal0 t : ℚ) (n : ℕ) (h : bal0 ≤ 1000) :
    ∀ r ∈ gateReps ⟨100, 1000, -500⟩ 10000 t n { lastTime := t, balance := bal0 },
      r.1 = false ∧ r.2.balance = -500 := by
  induction n generalizing bal0 with
  | zero => intro r hr; simp [gateReps] at hr
  | succ n ih =>
      intro r hr
      simp only [gateReps, gate_c7_step bal0 t h, List.mem_cons] at hr
      rcases hr with rfl | hmem
      · exact ⟨rfl, rfl⟩
      · exact ih (-500) (by norm_num) r hmem

/-- Witness for C7: three back-to-back denied calls starting from
balance 0 at time 0. -/
theorem C7_repeated_denial_witness :
    (0:ℚ) ≤ 1000 ∧
    ∀ r ∈ gateReps ⟨100, 1000, -500⟩ 10000 0 3 { lastTime := 0, balance := 0 },
      r.1 = false ∧ r.2.balance = -500 :=
  ⟨by norm_num, C7_repeated_denial 0 0 3 (by norm_num)⟩

/-- Claim C8: across any sequence of `init`/`updateBalance`/`gate` calls
whose clock readings are non-decreasing (starting from the stored
`_lastTime`), the stored `_lastTime` is monotonically non-decreasing
across the calls. -/
theorem C8_lastTime_monotone (ops : List Op) (st : RateLimiter)
    (h : List.Chain (· ≤ ·) st.lastTime (ops.map Op.time)) :
    List.Chain' (· ≤ ·) ((runTrace ops st).map RateLimiter.lastTime) := by
  rw [runTrace_map_lastTime]
  cases hm : ops.map Op.time with
  | nil => exact trivial
  | cons t ts =>
      rw [hm] at h
      exact (List.chain_cons.mp h).2

/-- Witness for C8: an `init` at time 1 followed by a `gate` at time 2,
starting from `_lastTime = 0`. -/
theorem C8_lastTime_monotone_witness :
    List.Chain' (· ≤ ·)
      ((runTrace [Op.opInit 5 1, Op.opGate ⟨100, 1000, -500⟩ 50 2]
          { lastTime := 0, balance := 0 }).map RateLimiter.lastTime) :=
  C8_lastTime_monotone _ _ (by norm_num [List.chain_cons, Op.time])

/-- Claim C9: a single `gate` call establishes the debt floor: for every
limit and every pre-call state the balance immediately after `gate` is at
least `minBalance`; and when `bytes = 0` with zero elapsed time, a
below-floor balance (not above `maxBalance`) is raised to exactly
`minBalance`. -/
theorem C9_floor_established (lim : Limit) (bytes now : ℚ) (st : RateLimiter) :
    lim.minBalance ≤ (gate lim bytes now st).2.balance ∧
    (bytes = 0 → now = st.lastTime → st.balance < lim.minBalance →
      st.balance ≤ lim.maxBalance →
      (gate lim bytes now st).2.balance = lim.minBalance) := by
  refine ⟨minBalance_le_gate lim bytes now st, ?_⟩
  rintro rfl rfl hlt hle
  have hb : (updateBalance lim st.lastTime st).1 = st.balance := by
    rw [updateBalance_fst]
    simp only [sub_self, mul_zero, add_zero]
    exact min_eq_right hle
  rw [gate_balance, hb, sub_zero]
  exact max_eq_left hlt.le

/-- Witness for C9: limit `{r := 1, M := 10, m := -5}` with a preloaded
below-floor balance of -7 and a 0-byte `gate` call at zero elapsed time. -/
theorem C9_floor_established_witness :
    (-7 : ℚ) < (⟨1, 10, -5⟩ : Limit).minBalance ∧
    (gate ⟨1, 10, -5⟩ 0 0 { lastTime := 0, balance := -7 }).2.balance
      = (⟨1, 10, -5⟩ : Limit).minBalance :=
  ⟨by norm_num,
   (C9_floor_established ⟨1, 10, -5⟩ 0 0 { lastTime := 0, balance := -7 }).2
     rfl rfl (by norm_num) (by norm_num)⟩

/-- Claim C10: the debit step of `gate` applies no upper clamp: with the
consistent limit `{r := 1, M := 10, m := -5}`, a state whose refreshed
balance equals `maxBalance = 10`, and `bytes = -1` taken as a credit, the
balance immediately after `gate` is 11, strictly greater than
`maxBalance`; it stays there until the next refresh, which clamps it back
to at most `maxBalance`. -/
theorem C10_no_upper_clamp :
    ((⟨1, 10, -5⟩ : Limit).minBalance ≤ 0 ∧
      (0:ℚ) < (⟨1, 10, -5⟩ : Limit).maxBalance ∧
      (⟨1, 10, -5⟩ : Limit).minBalance < (⟨1, 10, -5⟩ : Limit).maxBalance) ∧
    (updateBalance ⟨1, 10, -5⟩ 0 { lastTime := 0, balance := 10 }).1
      = (⟨1, 10, -5⟩ : Limit).maxBalance ∧
    (gate ⟨1, 10, -5⟩ (-1) 0 { lastTime := 0, balance := 10 }).2.balance = 11 ∧
    (⟨1, 10, -5⟩ : Limit).maxBalance
      < (gate ⟨1, 10, -5⟩ (-1) 0 { lastTime := 0, balance := 10 }).2.balance ∧
    (updateBalance ⟨1, 10, -5⟩ 0 (gate ⟨1, 10, -5⟩ (-1) 0 { lastTime := 0, balance := 10 }).2).1
      ≤ (⟨1, 10, -5⟩ : Limit).maxBalance := by
  refine ⟨by norm_num, ?_, ?_, ?_, ?_⟩ <;>
    norm_num [gate_balance, updateBalance_fst, gate_lastTime, min_def, max_def]

end ZeroTier
